import Mathlib

/-!
Verification of the data-anonymization engine of `mm-packet-pull`
(`obfuscate.go`), as a shallow embedding in Lean 4.

Go strings are modelled as Lean `String` / `List Char`; the process-wide
`obfuscationCache` map becomes an explicit association list threaded
through every call; `crypto/sha256` + `encoding/hex` are implemented
bit-faithfully over `Nat` with explicit reductions modulo `2 ^ 32`;
Go regular-expression substitution (`ReplaceAllStringFunc`, leftmost
match, greedy with backtracking) is implemented per fixed pattern as a
dedicated scanner with the same match semantics.
-/

set_option maxRecDepth 100000

namespace MMPacketPull

/-! ## Hash Oracle: crypto/sha256 + encoding/hex, over Nat -/

/-- Wrap a natural number to a 32-bit word, as Go `uint32` arithmetic does. -/
def w32 (n : Nat) : Nat := n % 4294967296

/-- Rotate a 32-bit word right by `n` bits (0 < n < 32, input < 2^32). -/
def rotr32 (x n : Nat) : Nat := w32 (x / 2 ^ n + x % 2 ^ n * 2 ^ (32 - n))

/-- Logical right shift on a 32-bit word. -/
def shr32 (x n : Nat) : Nat := x / 2 ^ n

/-- SHA-256 `Ch` function: `(x AND y) XOR ((NOT x) AND z)`. -/
def ch32 (x y z : Nat) : Nat := (x &&& y) ^^^ ((x ^^^ 4294967295) &&& z)

/-- SHA-256 `Maj` function. -/
def maj32 (x y z : Nat) : Nat := (x &&& y) ^^^ (x &&& z) ^^^ (y &&& z)

/-- SHA-256 Σ0. -/
def bigSigma0 (x : Nat) : Nat := rotr32 x 2 ^^^ rotr32 x 13 ^^^ rotr32 x 22

/-- SHA-256 Σ1. -/
def bigSigma1 (x : Nat) : Nat := rotr32 x 6 ^^^ rotr32 x 11 ^^^ rotr32 x 25

/-- SHA-256 σ0. -/
def smallSigma0 (x : Nat) : Nat := rotr32 x 7 ^^^ rotr32 x 18 ^^^ shr32 x 3

/-- SHA-256 σ1. -/
def smallSigma1 (x : Nat) : Nat := rotr32 x 17 ^^^ rotr32 x 19 ^^^ shr32 x 10

/-- The 64 SHA-256 round constants (FIPS 180-4, written in decimal). -/
def sha256K : List Nat :=
  [1116352408, 1899447441, 3049323471, 3921009573, 961987163,
   1508970993, 2453635748, 2870763221, 3624381080, 310598401,
   607225278, 1426881987, 1925078388, 2162078206, 2614888103,
   3248222580, 3835390401, 4022224774, 264347078, 604807628,
   770255983, 1249150122, 1555081692, 1996064986, 2554220882,
   2821834349, 2952996808, 3210313671, 3336571891, 3584528711,
   113926993, 338241895, 666307205, 773529912, 1294757372,
   1396182291, 1695183700, 1986661051, 2177026350, 2456956037,
   2730485921, 2820302411, 3259730800, 3345764771, 3516065817,
   3600352804, 4094571909, 275423344, 430227734, 506948616,
   659060556, 883997877, 958139571, 1322822218, 1537002063,
   1747873779, 1955562222, 2024104815, 2227730452, 2361852424,
   2428436474, 2756734187, 3204031479, 3329325298]

/-- The eight 32-bit working variables of a SHA-256 state. -/
structure Hash8 where
  a : Nat
  b : Nat
  c : Nat
  d : Nat
  e : Nat
  f : Nat
  g : Nat
  h : Nat
deriving Repr

/-- SHA-256 initial hash value (FIPS 180-4, written in decimal). -/
def sha256Init : Hash8 :=
  ⟨1779033703, 3144134277, 1013904242, 2773480762,
   1359893119, 2600822924, 528734635, 1541459225⟩

/-- One SHA-256 compression round. -/
def sha256Round (st : Hash8) (k w : Nat) : Hash8 :=
  let t1 := w32 (st.h + bigSigma1 st.e + ch32 st.e st.f st.g + k + w)
  let t2 := w32 (bigSigma0 st.a + maj32 st.a st.b st.c)
  ⟨w32 (t1 + t2), st.a, st.b, st.c, w32 (st.d + t1), st.e, st.f, st.g⟩

/-- Big-endian 32-bit word from four bytes. -/
def bytesToWord (b0 b1 b2 b3 : Nat) : Nat := ((b0 * 256 + b1) * 256 + b2) * 256 + b3

/-- Parse a 64-byte block into sixteen big-endian words. -/
def wordsOfBlock : List Nat → List Nat
  | b0 :: b1 :: b2 :: b3 :: rest => bytesToWord b0 b1 b2 b3 :: wordsOfBlock rest
  | _ => []

/-- Extend the 16-word message schedule to 64 words. -/
def extendSchedule (ws : Array Nat) : Array Nat :=
  (List.range 48).foldl
    (fun acc i =>
      let t := i + 16
      acc.push (w32 (smallSigma1 (acc.getD (t - 2) 0) + acc.getD (t - 7) 0 +
                     smallSigma0 (acc.getD (t - 15) 0) + acc.getD (t - 16) 0)))
    ws

/-- Process one 64-byte block against the running state. -/
def sha256Block (st : Hash8) (block : List Nat) : Hash8 :=
  let w := extendSchedule (wordsOfBlock block).toArray
  let r := (List.range 64).foldl (fun acc i => sha256Round acc (sha256K.getD i 0) (w.getD i 0)) st
  ⟨w32 (st.a + r.a), w32 (st.b + r.b), w32 (st.c + r.c), w32 (st.d + r.d),
   w32 (st.e + r.e), w32 (st.f + r.f), w32 (st.g + r.g), w32 (st.h + r.h)⟩

/-- SHA-256 padding: append `0x80`, zeros, then the 64-bit big-endian bit length. -/
def sha256Pad (msg : List Nat) : List Nat :=
  let len := msg.length
  let zeros := (55 + 64 - len % 64) % 64
  let bitLen := 8 * len
  msg ++ 0x80 :: List.replicate zeros 0 ++
    [bitLen / 2 ^ 56 % 256, bitLen / 2 ^ 48 % 256, bitLen / 2 ^ 40 % 256, bitLen / 2 ^ 32 % 256,
     bitLen / 2 ^ 24 % 256, bitLen / 2 ^ 16 % 256, bitLen / 2 ^ 8 % 256, bitLen % 256]

/-- Split a byte list into 64-byte chunks (fuel-indexed; fuel = length suffices). -/
def chunks64Aux : Nat → List Nat → List (List Nat)
  | _, [] => []
  | 0, l => [l]
  | fuel + 1, l => l.take 64 :: chunks64Aux fuel (l.drop 64)

/-- Split a byte list into 64-byte chunks. -/
def chunks64 (l : List Nat) : List (List Nat) := chunks64Aux l.length l

/-- Serialize one 32-bit word to four big-endian bytes. -/
def word4 (w : Nat) : List Nat := [w / 2 ^ 24 % 256, w / 2 ^ 16 % 256, w / 2 ^ 8 % 256, w % 256]

/-- Serialize a SHA-256 state to its 32-byte digest. -/
def digestBytes (st : Hash8) : List Nat :=
  word4 st.a ++ word4 st.b ++ word4 st.c ++ word4 st.d ++
  word4 st.e ++ word4 st.f ++ word4 st.g ++ word4 st.h

/-- SHA-256 of a byte list. -/
def sha256 (msg : List Nat) : List Nat :=
  digestBytes ((chunks64 (sha256Pad msg)).foldl sha256Block sha256Init)

/-- UTF-8 encoding of one character, as Go lays out string bytes. -/
def utf8EncodeCharNat (c : Char) : List Nat :=
  let n := c.toNat
  if n < 0x80 then [n]
  else if n < 0x800 then [0xC0 + n / 64, 0x80 + n % 64]
  else if n < 0x10000 then [0xE0 + n / 4096, 0x80 + n / 64 % 64, 0x80 + n % 64]
  else [0xF0 + n / 262144, 0x80 + n / 4096 % 64, 0x80 + n / 64 % 64, 0x80 + n % 64]

/-- The UTF-8 bytes of a string (Go `[]byte(value)`). -/
def utf8Bytes (s : String) : List Nat := s.data.flatMap utf8EncodeCharNat

/-- Lowercase hex digit for a value below 16, as `encoding/hex` produces. -/
def hexDigitChar (n : Nat) : Char := if n < 10 then Char.ofNat (48 + n) else Char.ofNat (87 + n)

/-- Lowercase hex encoding of a byte list (`hex.EncodeToString`). -/
def hexOfBytes : List Nat → List Char
  | [] => []
  | b :: bs => hexDigitChar (b / 16) :: hexDigitChar (b % 16) :: hexOfBytes bs

/-- Go slice `s[:n]` on an ASCII string, as characters. -/
def strTake (n : Nat) (s : String) : String := String.mk (s.data.take n)

/-- Model of `generateConsistentHash` (obfuscate.go:27): first 8 hex chars of SHA-256. -/
def generateConsistentHash (value : String) : String :=
  String.mk ((hexOfBytes (sha256 (utf8Bytes value))).take 8)

/-! ## Cache and Go string helpers -/

/-- The process-wide `obfuscationCache` (obfuscate.go:24), made explicit:
an association list from original value to assigned placeholder, threaded
through every obfuscation call. Entries are only ever added, never
overwritten, so an association list mirrors the Go map. -/
abbrev Cache : Type := List (String × String)

/-- Look a key up in the cache (`obfuscationCache[key]`). -/
def lookupCache : Cache → String → Option String
  | [], _ => none
  | (k, v) :: rest, key => if k = key then some v else lookupCache rest key

/-- Store a fresh mapping (`obfuscationCache[key] = value`). -/
def storeCache (c : Cache) (k v : String) : Cache := (k, v) :: c

/-- Go `strings.Split(s, sep)` for a one-character separator. -/
def splitOnChar (sep : Char) : List Char → List (List Char)
  | [] => [[]]
  | x :: xs =>
    if x = sep then [] :: splitOnChar sep xs
    else
      match splitOnChar sep xs with
      | [] => [[x]]
      | y :: ys => (x :: y) :: ys

/-- Go `strings.SplitN(s, "/", 2)`: the part before the first separator, and
the remainder after it when the separator occurs. -/
def splitFirstChar (sep : Char) (l : List Char) : List Char × Option (List Char) :=
  let pre := l.takeWhile (fun ch => ch ≠ sep)
  match l.dropWhile (fun ch => ch ≠ sep) with
  | [] => (pre, none)
  | _ :: rest => (pre, some rest)

/-- Go `strings.Contains(hay, needle)`. -/
def containsSub (hay needle : List Char) : Bool :=
  needle.isPrefixOf hay ||
    match hay with
    | [] => false
    | _ :: t => containsSub t needle

/-- Go `strings.Contains` on strings. -/
def strContains (hay needle : String) : Bool := containsSub hay.data needle.data

/-- Go `len(s)` — the byte length of the string's UTF-8 form. -/
def goLen (s : String) : Nat := (utf8Bytes s).length

/-- Go `strings.HasPrefix(s, pre)`. (Kernel-reducible stand-in for
`String.startsWith`, which core implements by well-founded recursion.) -/
def strStartsWith (s pre : String) : Bool := pre.data.isPrefixOf s.data

/-- Go `strings.HasSuffix(s, suf)`. -/
def strEndsWith (s suf : String) : Bool := suf.data.isSuffixOf s.data

/-- Go `s[n:]` / `strings.TrimPrefix` remainder on ASCII prefixes, as
characters. -/
def strDrop (n : Nat) (s : String) : String := String.mk (s.data.drop n)

/-- Go `strings.ToLower` (ASCII letters; config keys are ASCII). -/
def strToLower (s : String) : String := String.mk (s.data.map Char.toLower)

/-! ## Value Obfuscators (obfuscate.go:33-203) -/

/-- Model of `obfuscateIPAddress` (obfuscate.go:33): `XXX.XXX.XXX.<3-hex fingerprint>`,
cache-backed. -/
def obfuscateIPAddress (c : Cache) (ip : String) : String × Cache :=
  match lookupCache c ip with
  | some cached => (cached, c)
  | none =>
    let hash := generateConsistentHash ip
    let obfuscated := "XXX.XXX.XXX." ++ strTake 3 hash
    (obfuscated, storeCache c ip obfuscated)

/-- Model of `obfuscateEmail` (obfuscate.go:45): split on every `@`; exactly two parts
give `user_<6 hex>@domain_<6 hex>.com`, anything else the sentinel (which is
not cached). -/
def obfuscateEmail (c : Cache) (email : String) : String × Cache :=
  match lookupCache c email with
  | some cached => (cached, c)
  | none =>
    let parts := splitOnChar '@' email.data
    if parts.length = 2 then
      let userHash := generateConsistentHash (String.mk (parts.getD 0 []))
      let domainHash := generateConsistentHash (String.mk (parts.getD 1 []))
      let obfuscated := "user_" ++ strTake 6 userHash ++ "@domain_" ++ strTake 6 domainHash ++ ".com"
      (obfuscated, storeCache c email obfuscated)
    else ("***OBFUSCATED_EMAIL***", c)

/-- The `^\d+\.\d+\.\d+\.\d+` prefix test used by `obfuscateURL`
(obfuscate.go:84) to decide whether a host is an IP address. -/
def hasIPv4Head (l : List Char) : Bool :=
  let (d1, r1) := (l.takeWhile Char.isDigit, l.dropWhile Char.isDigit)
  if d1.isEmpty then false else
  match r1 with
  | '.' :: r1' =>
    let (d2, r2) := (r1'.takeWhile Char.isDigit, r1'.dropWhile Char.isDigit)
    if d2.isEmpty then false else
    match r2 with
    | '.' :: r2' =>
      let (d3, r3) := (r2'.takeWhile Char.isDigit, r2'.dropWhile Char.isDigit)
      if d3.isEmpty then false else
      match r3 with
      | '.' :: r3' => !(r3'.takeWhile Char.isDigit).isEmpty
      | _ => false
    | _ => false
  | _ => false

/-- Model of `obfuscateURL` (obfuscate.go:63): keep the scheme, split host and path at
the first `/`, mask an IPv4 host via the IP obfuscator (keeping the port) and
any other host as `host_<6 hex>.example.com` (keeping the port), keep the
path, and cache the whole URL. -/
def obfuscateURL (c : Cache) (url : String) : String × Cache :=
  match lookupCache c url with
  | some cached => (cached, c)
  | none =>
    let protocol := if strStartsWith url "https://" then "https" else "http"
    let remaining :=
      if strStartsWith url "https://" then strDrop 8 url
      else if strStartsWith url "http://" then strDrop 7 url
      else url
    let parts := splitFirstChar '/' remaining.data
    let host := parts.1
    let (obfuscatedHost, c1) :=
      if hasIPv4Head host then
        let ipParts := splitOnChar ':' host
        let r := obfuscateIPAddress c (String.mk (ipParts.getD 0 []))
        (if ipParts.length > 1 then r.1 ++ ":" ++ String.mk (ipParts.getD 1 []) else r.1, r.2)
      else
        let hostHash := generateConsistentHash (String.mk host)
        let hostParts := splitOnChar ':' host
        ("host_" ++ strTake 6 hostHash ++ ".example.com" ++
           (if hostParts.length > 1 then ":" ++ String.mk (hostParts.getD 1 []) else ""), c)
    let obfuscated := protocol ++ "://" ++ obfuscatedHost ++
      (match parts.2 with
       | none => ""
       | some p => "/" ++ String.mk p)
    (obfuscated, storeCache c1 url obfuscated)

/-- Model of `obfuscatePassword` (obfuscate.go:111): empty stays empty, everything else
becomes the constant sentinel; no caching. -/
def obfuscatePassword (password : String) : String :=
  if password = "" then "" else "***REDACTED***"

/-- Model of `obfuscateAPIKey` (obfuscate.go:119): empty stays empty (checked before
the cache); otherwise `OBFUSCATED_KEY_<8 hex>`, cache-backed. -/
def obfuscateAPIKey (c : Cache) (key : String) : String × Cache :=
  if key = "" then ("", c)
  else
    match lookupCache c key with
    | some cached => (cached, c)
    | none =>
      let hash := generateConsistentHash key
      let obfuscated := "OBFUSCATED_KEY_" ++ strTake 8 hash
      (obfuscated, storeCache c key obfuscated)

/-- Model of `obfuscateUsername` (obfuscate.go:191): empty stays empty (checked before
the cache); otherwise `user_<8 hex>`, cache-backed. -/
def obfuscateUsername (c : Cache) (username : String) : String × Cache :=
  if username = "" then ("", c)
  else
    match lookupCache c username with
    | some cached => (cached, c)
    | none =>
      let hash := generateConsistentHash username
      let obfuscated := "user_" ++ strTake 8 hash
      (obfuscated, storeCache c username obfuscated)

/-- The inline user-ID rewriter of `ObfuscateLogFile` (obfuscate.go:329-337):
`id_<8 hex>`, cache-backed. -/
def obfuscateUserID (c : Cache) (id : String) : String × Cache :=
  match lookupCache c id with
  | some cached => (cached, c)
  | none =>
    let hash := generateConsistentHash id
    let obfuscatedID := "id_" ++ hash
    (obfuscatedID, storeCache c id obfuscatedID)

/-! ## Connection-String Parser (obfuscate.go:134-188) -/

/-- The capture groups of either DSN regular expression. `protocol` is empty
for the MySQL dialect; `params` includes its leading `?` when present. -/
structure DSNParts where
  protocol : List Char
  username : List Char
  password : List Char
  host : List Char
  dbname : List Char
  params : List Char
deriving Repr, DecidableEq

/-- Matcher for `^(postgres(?:ql)?://)([^:]+):([^@]+)@([^/]+)/([^?]+)(\?.*)?$`
(obfuscate.go:140). Each `[^x]+` group is forced to stop at the first `x`, so
the backtracking search is deterministic; `.*` cannot cross a newline and `$`
is end of text, so a newline after the `?` defeats the optional group and the
whole match. -/
def pgParse (l : List Char) : Option DSNParts :=
  let proto : List Char :=
    if "postgresql://".data.isPrefixOf l then "postgresql://".data
    else if "postgres://".data.isPrefixOf l then "postgres://".data
    else []
  if proto.isEmpty then none else
  let rest := l.drop proto.length
  let u := rest.takeWhile (fun ch => ch ≠ ':')
  if u.isEmpty then none else
  match rest.drop u.length with
  | ':' :: r1 =>
    let p := r1.takeWhile (fun ch => ch ≠ '@')
    if p.isEmpty then none else
    match r1.drop p.length with
    | '@' :: r2 =>
      let h := r2.takeWhile (fun ch => ch ≠ '/')
      if h.isEmpty then none else
      match r2.drop h.length with
      | '/' :: r3 =>
        let db := r3.takeWhile (fun ch => ch ≠ '?')
        if db.isEmpty then none else
        match r3.drop db.length with
        | [] => some ⟨proto, u, p, h, db, []⟩
        | '?' :: r4 =>
          if r4.contains '\n' then none else some ⟨proto, u, p, h, db, '?' :: r4⟩
        | _ => none
      | _ => none
    | _ => none
  | _ => none

/-- Matcher for `^([^:]+):([^@]+)@tcp\(([^)]+)\)/([^?]+)(\?.*)?$`
(obfuscate.go:164), with the same deterministic-backtracking reasoning. -/
def mysqlParse (l : List Char) : Option DSNParts :=
  let u := l.takeWhile (fun ch => ch ≠ ':')
  if u.isEmpty then none else
  match l.drop u.length with
  | ':' :: r1 =>
    let p := r1.takeWhile (fun ch => ch ≠ '@')
    if p.isEmpty then none else
    match r1.drop p.length with
    | '@' :: 't' :: 'c' :: 'p' :: '(' :: r2 =>
      let h := r2.takeWhile (fun ch => ch ≠ ')')
      if h.isEmpty then none else
      match r2.drop h.length with
      | ')' :: '/' :: r3 =>
        let db := r3.takeWhile (fun ch => ch ≠ '?')
        if db.isEmpty then none else
        match r3.drop db.length with
        | [] => some ⟨[], u, p, h, db, []⟩
        | '?' :: r4 =>
          if r4.contains '\n' then none else some ⟨[], u, p, h, db, '?' :: r4⟩
        | _ => none
      | _ => none
    | _ => none
  | _ => none

/-- Reassemble the masked pieces of a recognized DSN exactly as the two
`fmt.Sprintf` calls in the source do. -/
def rebuildDSN (c : Cache) (parts : DSNParts) (mysql : Bool) : String × Cache :=
  let obfuscatedUser := "user_" ++ strTake 6 (generateConsistentHash (String.mk parts.username))
  let obfuscatedPass := "***REDACTED***"
  let obfuscatedDB := "db_" ++ strTake 6 (generateConsistentHash (String.mk parts.dbname))
  let hostParts := splitOnChar ':' parts.host
  let r := obfuscateIPAddress c (String.mk (hostParts.getD 0 []))
  let obfuscatedHost :=
    if hostParts.length > 1 then r.1 ++ ":" ++ String.mk (hostParts.getD 1 []) else r.1
  if mysql then
    (obfuscatedUser ++ ":" ++ obfuscatedPass ++ "@tcp(" ++ obfuscatedHost ++ ")/" ++
       obfuscatedDB ++ String.mk parts.params, r.2)
  else
    (String.mk parts.protocol ++ obfuscatedUser ++ ":" ++ obfuscatedPass ++ "@" ++
       obfuscatedHost ++ "/" ++ obfuscatedDB ++ String.mk parts.params, r.2)

/-- Model of `obfuscateDatabaseDSN` (obfuscate.go:134): empty stays empty; a string of
either recognized dialect is rebuilt with masked pieces; anything else is
replaced wholesale by `***REDACTED_DSN***`. -/
def obfuscateDatabaseDSN (c : Cache) (dsn : String) : String × Cache :=
  if dsn = "" then ("", c)
  else
    match pgParse dsn.data with
    | some parts => rebuildDSN c parts false
    | none =>
      match mysqlParse dsn.data with
      | some parts => rebuildDSN c parts true
      | none => ("***REDACTED_DSN***", c)

/-! ## Text Redactor: the regex substitutions of `ObfuscateLogFile`
(obfuscate.go:296-346)

Each fixed pattern of the source is implemented as a matcher
`tryMatch : Option Char → List Char → Option (List Char × List Char)` that,
given the character preceding the current position (for `\b`) and the text
from the current position, returns the matched span and the remainder when
the pattern matches here under Go's leftmost-first, greedy-with-backtracking
semantics. A generic scanner then replays `ReplaceAllStringFunc`: try every
position left to right, replace a match, and resume after it. -/

/-- RE2 word character (`\w` = `[0-9A-Za-z_]`), used by `\b`. -/
def isWordChar (ch : Char) : Bool := ch.isAlphanum || ch = '_'

/-- Test for `\b` between an optional preceding character (none at text start) and the
first character of the candidate match: exactly one side is a word char. -/
def boundaryBefore (prev : Option Char) (first : Char) : Bool :=
  isWordChar first != (match prev with | none => false | some p => isWordChar p)

/-- Test for `\b` after a match ending in a word character: the follower must not be a
word character (or the text must end). -/
def noWordFollows : List Char → Bool
  | [] => true
  | ch :: _ => !isWordChar ch

/-- Matcher for `\b\d{1,3}\.\d{1,3}\.\d{1,3}\.\d{1,3}\b` (obfuscate.go:309) at one
position. A digit group is a maximal digit run: a shorter greedy split would
put a digit where `\.` (or the final `\b`) is required, so a run longer than
3 kills the match. -/
def tryMatchIPv4 (prev : Option Char) (l : List Char) : Option (List Char × List Char) :=
  match l with
  | [] => none
  | first :: _ =>
    if !boundaryBefore prev first then none else
    let d1 := l.takeWhile Char.isDigit
    if d1.isEmpty || 3 < d1.length then none else
    match l.dropWhile Char.isDigit with
    | '.' :: r1 =>
      let d2 := r1.takeWhile Char.isDigit
      if d2.isEmpty || 3 < d2.length then none else
      match r1.dropWhile Char.isDigit with
      | '.' :: r2 =>
        let d3 := r2.takeWhile Char.isDigit
        if d3.isEmpty || 3 < d3.length then none else
        match r2.dropWhile Char.isDigit with
        | '.' :: r3 =>
          let d4 := r3.takeWhile Char.isDigit
          let r4 := r3.dropWhile Char.isDigit
          if d4.isEmpty || 3 < d4.length then none else
          if noWordFollows r4 then
            some (d1 ++ '.' :: d2 ++ '.' :: d3 ++ '.' :: d4, r4)
          else none
        | _ => none
      | _ => none
    | _ => none

/-- Class `[A-Za-z0-9._%+-]`, the local-part class of the email pattern. -/
def isEmailLocalChar (ch : Char) : Bool :=
  ch.isAlphanum || ch = '.' || ch = '_' || ch = '%' || ch = '+' || ch = '-'

/-- Class `[A-Za-z0-9.-]`, the domain class of the email pattern. -/
def isEmailDomainChar (ch : Char) : Bool := ch.isAlphanum || ch = '.' || ch = '-'

/-- Class `[A-Z|a-z]`, the top-level-domain class of the email pattern (the `|` is a
literal member of the class as written in the source). -/
def isEmailTldChar (ch : Char) : Bool := ch.isAlpha || ch = '|'

/-- Backtracking for `[A-Z|a-z]{2,}\b` once the maximal class run `t` (with
follower text `rest`) is known: the largest cut `j ≥ 2` of `t` at which a word
boundary holds. `j` counts characters kept. -/
def tldCutAux (t rest : List Char) : Nat → Option Nat
  | 0 => none
  | 1 => none
  | j + 1 =>
    let last := t.getD j ' '
    let next : Option Char := match t.drop (j + 1) with
      | ch :: _ => some ch
      | [] => match rest with
        | ch :: _ => some ch
        | [] => none
    if isWordChar last != (match next with | none => false | some ch => isWordChar ch)
    then some (j + 1) else tldCutAux t rest j

/-- Matcher for `\.[A-Z|a-z]{2,}\b` at `l`: number of characters consumed (including the
dot) when it matches. -/
def tldMatch (l : List Char) : Option Nat :=
  match l with
  | '.' :: r =>
    let t := r.takeWhile isEmailTldChar
    match tldCutAux t (r.dropWhile isEmailTldChar) t.length with
    | some j => some (j + 1)
    | none => none
  | _ => none

/-- Backtracking for `[A-Za-z0-9.-]+\.[A-Z|a-z]{2,}\b` after the `@`: try the
longest domain prefix first (greedy `+`), i.e. the latest cut `p ≥ 1` such
that `\.` and the TLD part match at `l.drop p`. Returns `p` together with the
TLD consumption. Go's engine only ever cuts where `l` has a `.`, since a
domain character is never a legal follower of a shorter greedy run. -/
def domainCutAux (l : List Char) : Nat → Option (Nat × Nat)
  | 0 => none
  | p + 1 =>
    match tldMatch (l.drop (p + 1)) with
    | some j => some (p + 1, j)
    | none => domainCutAux l p

/-- Matcher for `\b[A-Za-z0-9._%+-]+@[A-Za-z0-9.-]+\.[A-Z|a-z]{2,}\b` (obfuscate.go:310)
at one position. The local part is the maximal class run, which must be
followed by the literal `@` (the class excludes `@`, so no shorter greedy
split can succeed). -/
def tryMatchEmail (prev : Option Char) (l : List Char) : Option (List Char × List Char) :=
  match l with
  | [] => none
  | first :: _ =>
    if !boundaryBefore prev first then none else
    let localPart := l.takeWhile isEmailLocalChar
    if localPart.isEmpty then none else
    match l.dropWhile isEmailLocalChar with
    | '@' :: afterAt =>
      let dmax := (afterAt.takeWhile isEmailDomainChar).length
      match domainCutAux afterAt dmax with
      | some (p, j) =>
        let total := localPart.length + 1 + p + j
        some (l.take total, l.drop total)
      | none => none
    | _ => none

/-- The negated class of the URL pattern:
`[^\s<>"{}|\\^`...`\[\]]` — RE2 `\s` is tab, newline, form feed, carriage
return and space. -/
def isURLChar (ch : Char) : Bool :=
  !(ch = '\t' || ch = '\n' || ch = Char.ofNat 12 || ch = '\r' || ch = ' ' ||
    ch = '<' || ch = '>' || ch = '"' || ch = Char.ofNat 123 || ch = Char.ofNat 125 ||
    ch = '|' || ch = '\\' || ch = '^' || ch = Char.ofNat 96 || ch = '[' || ch = ']')

/-- Matcher for the URL pattern of obfuscate.go:311 (scheme then one or more non-space, non-bracket characters) at one position. -/
def tryMatchURL (_prev : Option Char) (l : List Char) : Option (List Char × List Char) :=
  let scheme : List Char :=
    if "https://".data.isPrefixOf l then "https://".data
    else if "http://".data.isPrefixOf l then "http://".data
    else []
  if scheme.isEmpty then none else
  let rest := l.drop scheme.length
  let body := rest.takeWhile isURLChar
  if body.isEmpty then none else
  some (scheme ++ body, rest.dropWhile isURLChar)

/-- Matcher for `\b[A-Za-z0-9]{32,}\b` (obfuscate.go:313) at one position: a maximal
alphanumeric run of at least 32 characters; a following `_` (a word char
outside the class) defeats the trailing `\b` at every backtracking length. -/
def tryMatchToken (prev : Option Char) (l : List Char) : Option (List Char × List Char) :=
  match l with
  | [] => none
  | first :: _ =>
    if !boundaryBefore prev first then none else
    let run := l.takeWhile Char.isAlphanum
    if run.length < 32 then none else
    let rest := l.dropWhile Char.isAlphanum
    if noWordFollows rest then some (run, rest) else none

/-- Class `[a-z0-9]`, the class of Mattermost record IDs. -/
def isIdChar (ch : Char) : Bool := ch.isLower || ch.isDigit

/-- Matcher for `\b[a-z0-9]{26}\b` (obfuscate.go:315) at one position: the class run must
be exactly 26 long (a 27th class character is a word character after the
fixed-width group, defeating `\b`) with a word boundary on both sides. -/
def tryMatchUserID (prev : Option Char) (l : List Char) : Option (List Char × List Char) :=
  match l with
  | [] => none
  | first :: _ =>
    if !boundaryBefore prev first then none else
    let run := l.takeWhile isIdChar
    if run.length = 26 && noWordFollows (l.drop 26) then some (run, l.drop 26) else none

/-- Matcher for `\d+\.\d+\.\d+\.\d+` (obfuscate.go:279-280, no word boundaries, unbounded
groups) at one position. -/
def tryMatchIPLoose (_prev : Option Char) (l : List Char) : Option (List Char × List Char) :=
  let d1 := l.takeWhile Char.isDigit
  if d1.isEmpty then none else
  match l.dropWhile Char.isDigit with
  | '.' :: r1 =>
    let d2 := r1.takeWhile Char.isDigit
    if d2.isEmpty then none else
    match r1.dropWhile Char.isDigit with
    | '.' :: r2 =>
      let d3 := r2.takeWhile Char.isDigit
      if d3.isEmpty then none else
      match r2.dropWhile Char.isDigit with
      | '.' :: r3 =>
        let d4 := r3.takeWhile Char.isDigit
        if d4.isEmpty then none else
        some (d1 ++ '.' :: d2 ++ '.' :: d3 ++ '.' :: d4, r3.dropWhile Char.isDigit)
      | _ => none
    | _ => none
  | _ => none

/-- Generic `ReplaceAllStringFunc`: scan left to right; at a match, emit the
replacement and resume after the matched span (whose last original character
becomes the `\b` context); otherwise move one character. The fuel only bounds
the number of steps; `fuel = text length` is exact for matchers that consume
at least one character, which all of the above do. -/
def scanAux (tryMatch : Option Char → List Char → Option (List Char × List Char))
    (repl : Cache → List Char → List Char × Cache) :
    Nat → Option Char → List Char → Cache → List Char × Cache
  | _, _, [], c => ([], c)
  | 0, _, x :: xs, c => (x :: xs, c)
  | fuel + 1, prev, x :: xs, c =>
    match tryMatch prev (x :: xs) with
    | some (m, rest) =>
      match m.getLast? with
      | some lastc =>
        let r := repl c m
        let t := scanAux tryMatch repl fuel (some lastc) rest r.2
        (r.1 ++ t.1, t.2)
      | none =>
        let t := scanAux tryMatch repl fuel (some x) xs c
        (x :: t.1, t.2)
    | none =>
      let t := scanAux tryMatch repl fuel (some x) xs c
      (x :: t.1, t.2)

/-- One `ReplaceAllStringFunc` pass over a whole text. -/
def runStage (tryMatch : Option Char → List Char → Option (List Char × List Char))
    (repl : Cache → List Char → List Char × Cache) (c : Cache) (text : List Char) :
    List Char × Cache :=
  scanAux tryMatch repl text.length none text c

/-- Lift a `String`-level obfuscator to a span replacer. -/
def liftRepl (f : Cache → String → String × Cache) (c : Cache) (m : List Char) :
    List Char × Cache :=
  let r := f c (String.mk m)
  (r.1.data, r.2)

/-- The token-stage replacement closure (obfuscate.go:322-328): only spans of
byte length at least 40 are actually rewritten. -/
def tokenRepl (c : Cache) (m : List Char) : List Char × Cache :=
  if 40 ≤ goLen (String.mk m) then liftRepl obfuscateAPIKey c m else (m, c)

/-- The five ordered substitution passes of `ObfuscateLogFile`
(obfuscate.go:319-337) over a file's text. -/
def obfuscateLogText (c : Cache) (content : String) : String × Cache :=
  let s1 := runStage tryMatchIPv4 (liftRepl obfuscateIPAddress) c content.data
  let s2 := runStage tryMatchEmail (liftRepl obfuscateEmail) s1.2 s1.1
  let s3 := runStage tryMatchURL (liftRepl obfuscateURL) s2.2 s2.1
  let s4 := runStage tryMatchToken tokenRepl s3.2 s3.1
  let s5 := runStage tryMatchUserID (liftRepl obfuscateUserID) s4.2 s4.1
  (String.mk s5.1, s5.2)

/-! ## Structured-Data Redactor (obfuscate.go:245-293)

Go's `json.Unmarshal` produces an untyped tree of `map[string]interface{}`,
`[]interface{}`, `string`, `float64`, `bool` and `nil`; here it is the tagged
variant `Json`. A number is carried as its literal text: the redactor never
inspects or changes non-string leaves. Object fields are a key/value list
(Go map iteration order is unspecified; the list fixes one order, which no
structural claim depends on). -/

inductive Json where
  | null : Json
  | bool : Bool → Json
  | num : String → Json
  | str : String → Json
  | arr : List Json → Json
  | obj : List (String × Json) → Json
deriving Repr

/-- Test of `regexp.MustCompile(`...`\d+\.\d+\.\d+\.\d+`...`).MatchString`
(obfuscate.go:279): does the loose IPv4 pattern match anywhere? -/
def containsIPLoose : List Char → Bool
  | [] => false
  | x :: xs => (tryMatchIPLoose none (x :: xs)).isSome || containsIPLoose xs

/-- The key-classification switch of `obfuscateConfigData`
(obfuscate.go:252-282), applied to a string field value. First matching case
wins; an unmatched key leaves the value unchanged. -/
def classifyField (c : Cache) (key strValue : String) : String × Cache :=
  let lowerKey := strToLower key
  if strContains lowerKey "password" then (obfuscatePassword strValue, c)
  else if strContains lowerKey "secret" then obfuscateAPIKey c strValue
  else if strContains lowerKey "apikey" || strContains lowerKey "api_key" then
    obfuscateAPIKey c strValue
  else if strContains lowerKey "token" then obfuscateAPIKey c strValue
  else if strContains lowerKey "key" && strValue ≠ "" && 10 < goLen strValue then
    obfuscateAPIKey c strValue
  else if strContains lowerKey "salt" then obfuscateAPIKey c strValue
  else if lowerKey = "datasource" || lowerKey = "connectionurl" then
    obfuscateDatabaseDSN c strValue
  else if strContains lowerKey "url" &&
      (strStartsWith strValue "http://" || strStartsWith strValue "https://") then
    obfuscateURL c strValue
  else if strContains lowerKey "email" && strValue.data.contains '@' then
    obfuscateEmail c strValue
  else if strContains lowerKey "username" && strValue ≠ "" then
    obfuscateUsername c strValue
  else if lowerKey = "siteurl" then obfuscateURL c strValue
  else if strContains lowerKey "address" || strContains lowerKey "host" then
    if containsIPLoose strValue.data then
      let r := runStage tryMatchIPLoose (liftRepl obfuscateIPAddress) c strValue.data
      (String.mk r.1, r.2)
    else (strValue, c)
  else (strValue, c)

mutual

/-- Model of `obfuscateConfigData` (obfuscate.go:245): recursively walk the
value tree; at an object, classify each string field by its key and continue
into every nested value. In Go the recursive call on a just-replaced string
field receives the original string and cannot change anything, so the
embedding recurses only into non-string values. -/
def obfuscateConfigData (c : Cache) : Json → Json × Cache
  | .null => (.null, c)
  | .bool b => (.bool b, c)
  | .num v => (.num v, c)
  | .str s => (.str s, c)
  | .arr items =>
    let r := obfuscateConfigArr c items
    (.arr r.1, r.2)
  | .obj fields =>
    let r := obfuscateConfigObj c fields
    (.obj r.1, r.2)

/-- The `[]interface{}` arm: process each element in order. -/
def obfuscateConfigArr (c : Cache) : List Json → List Json × Cache
  | [] => ([], c)
  | x :: xs =>
    let r1 := obfuscateConfigData c x
    let r2 := obfuscateConfigArr r1.2 xs
    (r1.1 :: r2.1, r2.2)

/-- The `map[string]interface{}` arm: replace string fields via the key
switch, recurse into the rest. -/
def obfuscateConfigObj (c : Cache) : List (String × Json) → List (String × Json) × Cache
  | [] => ([], c)
  | (k, .str s) :: rest =>
    let r1 := classifyField c k s
    let r2 := obfuscateConfigObj r1.2 rest
    ((k, .str r1.1) :: r2.1, r2.2)
  | (k, v) :: rest =>
    let r1 := obfuscateConfigData c v
    let r2 := obfuscateConfigObj r1.2 rest
    ((k, r1.1) :: r2.1, r2.2)

end

/-! ## File and directory dispatch (obfuscate.go:206-242, 296-346, 349-378)

File input/output and `encoding/json` are external to the engine: reading a
file is modelled by handing the function the read outcome, parsing by a
parser argument (`json.Unmarshal` into `map[string]interface{}`: only an
object tree parses), and the rewritten on-disk content is returned
explicitly, so "no write happened" is visible as the content being returned
unchanged. -/

mutual

/-- Minimal serializer standing in for `json.MarshalIndent` (an external
library call): total on every tree, so marshalling never fails, matching the
Go code path where a `map[string]interface{}` always marshals. -/
def renderJson : Json → String
  | .null => "null"
  | .bool true => "true"
  | .bool false => "false"
  | .num v => v
  | .str s => "\"" ++ s ++ "\""
  | .arr items => "[" ++ ", ".intercalate (renderJsonList items) ++ "]"
  | .obj fields => "\x7b" ++ ", ".intercalate (renderJsonFields fields) ++ "\x7d"

/-- Serialize array elements. -/
def renderJsonList : List Json → List String
  | [] => []
  | x :: xs => renderJson x :: renderJsonList xs

/-- Serialize object fields. -/
def renderJsonFields : List (String × Json) → List String
  | [] => []
  | (k, v) :: xs => ("\"" ++ k ++ "\": " ++ renderJson v) :: renderJsonFields xs

end

/-- Model of `ObfuscateConfigFile` (obfuscate.go:206): read, parse into an
object tree, obfuscate, marshal, write back. Result: the file content on disk
after the call, the cache, and the error if any. Every failure path returns
the original content: the file is written only after a successful parse. -/
def ObfuscateConfigFile (parse : String → Option (List (String × Json)))
    (readResult : Except String String) (c : Cache) : String × Cache × Option String :=
  match readResult with
  | .error e => ("", c, some ("failed to open config file: " ++ e))
  | .ok content =>
    match parse content with
    | none => (content, c, some "failed to parse config JSON")
    | some config =>
      let r := obfuscateConfigObj c config
      (renderJson (.obj r.1), r.2, none)

/-- Model of `ObfuscateLogFile` (obfuscate.go:296): read, run the five text
substitution passes, write back. -/
def ObfuscateLogFile (readResult : Except String String) (c : Cache) :
    String × Cache × Option String :=
  match readResult with
  | .error e => ("", c, some ("failed to read log file: " ++ e))
  | .ok content =>
    let r := obfuscateLogText c content
    (r.1, r.2, none)

/-- One entry of `os.ReadDir`. -/
structure DirEntry where
  name : String
  isDir : Bool
deriving Repr

/-- Routing and per-file outcome for one directory entry, with the outcome of
each redactor call abstracted as a function from file name to possible error
(the redactors themselves do file I/O). Returns the warning logged for this
entry, if any (obfuscate.go:357-375). -/
def entryWarning (configOp logOp : String → Option String) (entry : DirEntry) :
    Option String :=
  if entry.isDir then none
  else
    let filename := entry.name
    if strEndsWith filename ".json" && strContains filename "config" then
      match configOp filename with
      | some e => some ("Failed to obfuscate config file " ++ filename ++ ": " ++ e)
      | none => none
    else if strEndsWith filename ".log" || strEndsWith filename ".txt" then
      match logOp filename with
      | some e => some ("Failed to obfuscate log file " ++ filename ++ ": " ++ e)
      | none => none
    else none

/-- The per-entry loop of `ObfuscateDirectory`: collect warnings, never stop. -/
def obfuscateDirLoop (configOp logOp : String → Option String) :
    List DirEntry → List String
  | [] => []
  | entry :: rest =>
    match entryWarning configOp logOp entry with
    | some w => w :: obfuscateDirLoop configOp logOp rest
    | none => obfuscateDirLoop configOp logOp rest

/-- Model of `ObfuscateDirectory` (obfuscate.go:349): a failed directory
listing is the only error; otherwise every entry is visited, per-file
failures become logged warnings (returned here so they are observable), and
the function returns success. -/
def ObfuscateDirectory (listing : Except String (List DirEntry))
    (configOp logOp : String → Option String) : Except String (List String) :=
  match listing with
  | .error e => .error ("failed to read directory: " ++ e)
  | .ok entries => .ok (obfuscateDirLoop configOp logOp entries)

/-! ## Structure skeleton and placeholder-format predicates

The skeleton erases only string-leaf contents; equal skeletons mean equal key
sets (with order), equal nesting, equal array lengths, and bitwise-equal
non-string leaves. The format predicates transcribe the placeholder shapes
named by the specification. -/

/-- The shape of a value tree with string contents erased. -/
inductive JShape where
  | null : JShape
  | bool : Bool → JShape
  | num : String → JShape
  | str : JShape
  | arr : List JShape → JShape
  | obj : List (String × JShape) → JShape
deriving Repr

mutual

/-- Erase string-leaf contents, keeping everything else. -/
def jsonShape : Json → JShape
  | .null => .null
  | .bool b => .bool b
  | .num v => .num v
  | .str _ => .str
  | .arr items => .arr (jsonShapeList items)
  | .obj fields => .obj (jsonShapeFields fields)

/-- Shapes of array elements. -/
def jsonShapeList : List Json → List JShape
  | [] => []
  | x :: xs => jsonShape x :: jsonShapeList xs

/-- Shapes of object fields, keys kept. -/
def jsonShapeFields : List (String × Json) → List (String × JShape)
  | [] => []
  | (k, v) :: xs => (k, jsonShape v) :: jsonShapeFields xs

end

/-- Lowercase hexadecimal digit, `[0-9a-f]`. -/
def isHexLower (ch : Char) : Bool := ch.isDigit || ('a' ≤ ch && ch ≤ 'f')

/-- Drop an expected literal head from a character list, or fail. -/
def dropLit : List Char → List Char → Option (List Char)
  | [], l => some l
  | _ :: _, [] => none
  | p :: ps, x :: xs => if p = x then dropLit ps xs else none

/-- Consume exactly `n` lowercase-hex characters, or fail. -/
def dropHexN : Nat → List Char → Option (List Char)
  | 0, l => some l
  | _ + 1, [] => none
  | n + 1, x :: xs => if isHexLower x then dropHexN n xs else none

/-- The `XXX.XXX.XXX.[0-9a-f]{3}` placeholder format of the specification. -/
def isIPPlaceholder (s : String) : Bool :=
  match dropLit "XXX.XXX.XXX.".data s.data with
  | some r =>
    match dropHexN 3 r with
    | some r2 => r2.isEmpty
    | none => false
  | none => false

/-- The `user_[0-9a-f]{6}@domain_[0-9a-f]{6}\.com` placeholder format of the
specification. -/
def isEmailPlaceholder (s : String) : Bool :=
  match dropLit "user_".data s.data with
  | some r1 =>
    match dropHexN 6 r1 with
    | some r2 =>
      match dropLit "@domain_".data r2 with
      | some r3 =>
        match dropHexN 6 r3 with
        | some r4 =>
          match dropLit ".com".data r4 with
          | some r5 => r5.isEmpty
          | none => false
        | none => false
      | none => false
    | none => false
  | none => false

/-- The `OBFUSCATED_KEY_[0-9a-f]{8}` placeholder format of the specification. -/
def isKeyPlaceholder (s : String) : Bool :=
  match dropLit "OBFUSCATED_KEY_".data s.data with
  | some r1 =>
    match dropHexN 8 r1 with
    | some r2 => r2.isEmpty
    | none => false
  | none => false

/-- A string that the text pipeline's strict IPv4 pattern matches in full. -/
def isIPv4Shaped (s : String) : Bool :=
  match tryMatchIPv4 none s.data with
  | some (m, rest) => m = s.data && rest.isEmpty
  | none => false

/-! ## Facts about the Hash Oracle's output -/

theorem hexDigitChar_hex (n : Nat) (h : n < 16) : isHexLower (hexDigitChar n) = true := by
  unfold hexDigitChar
  interval_cases n <;> decide

theorem hexOfBytes_hex (bs : List Nat) (hb : ∀ b ∈ bs, b < 256) :
    ∀ ch ∈ hexOfBytes bs, isHexLower ch = true := by
  induction bs with
  | nil => intro ch hch; simp [hexOfBytes] at hch
  | cons b bs ih =>
    intro ch hch
    have hblt : b < 256 := hb b (by simp)
    simp only [hexOfBytes, List.mem_cons] at hch
    rcases hch with rfl | rfl | hch
    · exact hexDigitChar_hex _ (by omega)
    · exact hexDigitChar_hex _ (by omega)
    · exact ih (fun x hx => hb x (by simp [hx])) ch hch

theorem hexOfBytes_length (bs : List Nat) : (hexOfBytes bs).length = 2 * bs.length := by
  induction bs with
  | nil => rfl
  | cons b bs ih => simp [hexOfBytes, ih]; omega

theorem word4_lt (w : Nat) : ∀ b ∈ word4 w, b < 256 := by
  intro b hb
  simp only [word4, List.mem_cons, List.not_mem_nil, or_false] at hb
  rcases hb with rfl | rfl | rfl | rfl <;> exact Nat.mod_lt _ (by omega)

theorem digestBytes_lt (st : Hash8) : ∀ b ∈ digestBytes st, b < 256 := by
  intro b hb
  simp only [digestBytes, List.mem_append] at hb
  rcases hb with ((((((h | h) | h) | h) | h) | h) | h) | h <;> exact word4_lt _ b h

theorem digestBytes_length (st : Hash8) : (digestBytes st).length = 32 := by
  simp [digestBytes, word4]

theorem sha256_lt (msg : List Nat) : ∀ b ∈ sha256 msg, b < 256 := by
  unfold sha256; exact digestBytes_lt _

theorem sha256_length (msg : List Nat) : (sha256 msg).length = 32 := by
  unfold sha256; exact digestBytes_length _

theorem hash_data (s : String) :
    (generateConsistentHash s).data = (hexOfBytes (sha256 (utf8Bytes s))).take 8 := rfl

theorem hash_length (s : String) : (generateConsistentHash s).data.length = 8 := by
  rw [hash_data, List.length_take, hexOfBytes_length, sha256_length]
  omega

theorem hash_hex (s : String) : ∀ ch ∈ (generateConsistentHash s).data, isHexLower ch = true := by
  rw [hash_data]
  intro ch hch
  exact hexOfBytes_hex _ (sha256_lt _) ch (List.mem_of_mem_take hch)

theorem hash_take_length (s : String) (n : Nat) (hn : n ≤ 8) :
    (strTake n (generateConsistentHash s)).data.length = n := by
  unfold strTake
  simp only [List.length_take, hash_length]
  omega

theorem hash_take_hex (s : String) (n : Nat) :
    ∀ ch ∈ (strTake n (generateConsistentHash s)).data, isHexLower ch = true := by
  unfold strTake
  intro ch hch
  exact hash_hex s ch (List.mem_of_mem_take hch)

/-! ## Facts about the format predicates and string helpers -/

theorem dropLit_self (p r : List Char) : dropLit p (p ++ r) = some r := by
  induction p with
  | nil => rfl
  | cons x xs ih => simp [dropLit, ih]

theorem dropHexN_exact (l r : List Char) (hl : ∀ ch ∈ l, isHexLower ch = true) :
    dropHexN l.length (l ++ r) = some r := by
  induction l with
  | nil => rfl
  | cons x xs ih =>
    have hx : isHexLower x = true := hl x (by simp)
    simp only [List.length_cons, List.cons_append, dropHexN, hx, if_true]
    exact ih fun ch hch => hl ch (by simp [hch])

theorem strTake_data (n : Nat) (s : String) : (strTake n s).data = s.data.take n := rfl

theorem mk_data (l : List Char) : (String.mk l).data = l := rfl

theorem dropHexN_of_len (n : Nat) (l r : List Char) (hlen : l.length = n)
    (hl : ∀ ch ∈ l, isHexLower ch = true) : dropHexN n (l ++ r) = some r := by
  subst hlen
  exact dropHexN_exact l r hl

theorem dropHexN_all (n : Nat) (l : List Char) (hlen : l.length = n)
    (hl : ∀ ch ∈ l, isHexLower ch = true) : dropHexN n l = some [] := by
  have h := dropHexN_of_len n l [] hlen hl
  rwa [List.append_nil] at h

theorem dropLit_refl (p : List Char) : dropLit p p = some [] := by
  have h := dropLit_self p []
  rwa [List.append_nil] at h

/-- An IP placeholder built from any source string passes the format check. -/
theorem isIPPlaceholder_build (s : String) :
    isIPPlaceholder ("XXX.XXX.XXX." ++ strTake 3 (generateConsistentHash s)) = true := by
  unfold isIPPlaceholder
  simp only [String.data_append, dropLit_self,
    dropHexN_all 3 _ (hash_take_length s 3 (by omega)) (hash_take_hex s 3), List.isEmpty_nil]

/-- An email placeholder built from any two source strings passes the format
check. -/
theorem isEmailPlaceholder_build (a b : String) :
    isEmailPlaceholder ("user_" ++ strTake 6 (generateConsistentHash a) ++ "@domain_" ++
      strTake 6 (generateConsistentHash b) ++ ".com") = true := by
  unfold isEmailPlaceholder
  simp only [String.data_append, List.append_assoc, dropLit_self,
    dropHexN_of_len 6 _ _ (hash_take_length a 6 (by omega)) (hash_take_hex a 6),
    dropHexN_of_len 6 _ _ (hash_take_length b 6 (by omega)) (hash_take_hex b 6),
    dropLit_refl, List.isEmpty_nil]

/-- A key placeholder built from any source string passes the format check. -/
theorem isKeyPlaceholder_build (s : String) :
    isKeyPlaceholder ("OBFUSCATED_KEY_" ++ strTake 8 (generateConsistentHash s)) = true := by
  unfold isKeyPlaceholder
  simp only [String.data_append, dropLit_self,
    dropHexN_all 8 _ (hash_take_length s 8 (by omega)) (hash_take_hex s 8), List.isEmpty_nil]

theorem splitOnChar_cons_self (sep : Char) (xs : List Char) :
    splitOnChar sep (sep :: xs) = [] :: splitOnChar sep xs := by
  simp [splitOnChar]

theorem splitOnChar_cons_ne (sep x : Char) (xs : List Char) (hx : x ≠ sep)
    (y : List Char) (ys : List (List Char)) (hsp : splitOnChar sep xs = y :: ys) :
    splitOnChar sep (x :: xs) = (x :: y) :: ys := by
  simp [splitOnChar, hx, hsp]

theorem splitOnChar_length (sep : Char) (l : List Char) :
    (splitOnChar sep l).length = l.count sep + 1 := by
  induction l with
  | nil => rfl
  | cons x xs ih =>
    by_cases hx : x = sep
    · subst hx
      rw [splitOnChar_cons_self]
      simp [List.count_cons, ih]
    · have hne : splitOnChar sep xs ≠ [] := by
        intro hnil
        rw [hnil] at ih
        simp at ih
      obtain ⟨y, ys, hsp⟩ := List.exists_cons_of_ne_nil hne
      rw [splitOnChar_cons_ne sep x xs hx y ys hsp]
      rw [hsp] at ih
      simp only [List.length_cons] at ih ⊢
      simp [List.count_cons, hx, ih]

theorem splitOnChar_ne_nil (sep : Char) (l : List Char) : splitOnChar sep l ≠ [] := by
  intro hnil
  have := splitOnChar_length sep l
  rw [hnil] at this
  simp at this

theorem splitOnChar_singleton (sep : Char) (l b : List Char)
    (h : splitOnChar sep l = [b]) : l = b ∧ sep ∉ b := by
  induction l generalizing b with
  | nil =>
    simp only [splitOnChar, List.cons.injEq] at h
    obtain ⟨rfl, -⟩ := h
    exact ⟨rfl, by simp⟩
  | cons x xs ih =>
    by_cases hx : x = sep
    · subst hx
      rw [splitOnChar_cons_self] at h
      simp only [List.cons.injEq] at h
      exact absurd h.2 (splitOnChar_ne_nil x xs)
    · obtain ⟨y, ys, hsp⟩ := List.exists_cons_of_ne_nil (splitOnChar_ne_nil sep xs)
      rw [splitOnChar_cons_ne sep x xs hx y ys hsp] at h
      simp only [List.cons.injEq] at h
      obtain ⟨rfl, rfl⟩ := h
      obtain ⟨rfl, hnot⟩ := ih y (by rw [hsp])
      refine ⟨rfl, ?_⟩
      simp only [List.mem_cons, not_or]
      exact ⟨Ne.symm hx, hnot⟩

theorem splitOnChar_pair (sep : Char) (l a b : List Char)
    (h : splitOnChar sep l = [a, b]) : l = a ++ sep :: b ∧ sep ∉ a ∧ sep ∉ b := by
  induction l generalizing a with
  | nil => simp [splitOnChar] at h
  | cons x xs ih =>
    by_cases hx : x = sep
    · subst hx
      rw [splitOnChar_cons_self] at h
      simp only [List.cons.injEq] at h
      obtain ⟨rfl, h2⟩ := h
      obtain ⟨rfl, hnot⟩ := splitOnChar_singleton x xs b h2
      exact ⟨rfl, by simp, hnot⟩
    · obtain ⟨y, ys, hsp⟩ := List.exists_cons_of_ne_nil (splitOnChar_ne_nil sep xs)
      rw [splitOnChar_cons_ne sep x xs hx y ys hsp] at h
      simp only [List.cons.injEq] at h
      obtain ⟨rfl, h2⟩ := h
      obtain ⟨rfl, hnota, hnotb⟩ := ih y (by rw [hsp, h2])
      refine ⟨rfl, ?_, hnotb⟩
      simp only [List.mem_cons, not_or]
      exact ⟨Ne.symm hx, hnota⟩

/-! ## Cache behavior of the obfuscators -/

theorem lookupCache_store (c : Cache) (k v : String) :
    lookupCache (storeCache c k v) k = some v := by
  simp [storeCache, lookupCache]

theorem obfuscateIPAddress_hit (c : Cache) (s p : String) (h : lookupCache c s = some p) :
    obfuscateIPAddress c s = (p, c) := by
  unfold obfuscateIPAddress
  rw [h]

theorem obfuscateEmail_hit (c : Cache) (s p : String) (h : lookupCache c s = some p) :
    obfuscateEmail c s = (p, c) := by
  unfold obfuscateEmail
  rw [h]

theorem obfuscateURL_hit (c : Cache) (s p : String) (h : lookupCache c s = some p) :
    obfuscateURL c s = (p, c) := by
  unfold obfuscateURL
  rw [h]

theorem obfuscateUserID_hit (c : Cache) (s p : String) (h : lookupCache c s = some p) :
    obfuscateUserID c s = (p, c) := by
  unfold obfuscateUserID
  rw [h]

theorem obfuscateAPIKey_hit (c : Cache) (s p : String) (hs : s ≠ "")
    (h : lookupCache c s = some p) : obfuscateAPIKey c s = (p, c) := by
  unfold obfuscateAPIKey
  rw [if_neg hs, h]

theorem obfuscateUsername_hit (c : Cache) (s p : String) (hs : s ≠ "")
    (h : lookupCache c s = some p) : obfuscateUsername c s = (p, c) := by
  unfold obfuscateUsername
  rw [if_neg hs, h]

theorem obfuscateIPAddress_caches (c : Cache) (s : String) :
    lookupCache (obfuscateIPAddress c s).2 s = some (obfuscateIPAddress c s).1 := by
  unfold obfuscateIPAddress
  cases h : lookupCache c s with
  | some p => exact h
  | none => exact lookupCache_store ..

theorem obfuscateURL_caches (c : Cache) (s : String) :
    lookupCache (obfuscateURL c s).2 s = some (obfuscateURL c s).1 := by
  unfold obfuscateURL
  cases h : lookupCache c s with
  | some p => exact h
  | none => exact lookupCache_store ..

theorem obfuscateUserID_caches (c : Cache) (s : String) :
    lookupCache (obfuscateUserID c s).2 s = some (obfuscateUserID c s).1 := by
  unfold obfuscateUserID
  cases h : lookupCache c s with
  | some p => exact h
  | none => exact lookupCache_store ..

/-! ## ASCII facts needed for Go byte lengths -/

theorem isAlphanum_toNat_lt (ch : Char) (h : ch.isAlphanum = true) : ch.toNat < 128 := by
  simp only [Char.isAlphanum, Char.isAlpha, Char.isUpper, Char.isLower, Char.isDigit,
    Bool.or_eq_true, Bool.and_eq_true, decide_eq_true_eq] at h
  rcases h with (⟨_, h2⟩ | ⟨_, h2⟩) | ⟨_, h2⟩ <;>
  · rw [UInt32.le_def] at h2
    have h3 : ch.toNat ≤ 122 := le_trans h2 (by decide)
    omega

theorem utf8Encode_ascii (ch : Char) (h : ch.toNat < 128) :
    utf8EncodeCharNat ch = [ch.toNat] := by
  unfold utf8EncodeCharNat
  rw [if_pos h]

theorem flatMap_ascii_length (t : List Char) (h : ∀ ch ∈ t, ch.toNat < 128) :
    (t.flatMap utf8EncodeCharNat).length = t.length := by
  induction t with
  | nil => rfl
  | cons x xs ih =>
    rw [List.flatMap_cons, utf8Encode_ascii x (h x (by simp)), List.length_append,
      ih fun ch hch => h ch (by simp [hch])]
    simp [Nat.add_comm]

theorem goLen_ascii (t : List Char) (h : ∀ ch ∈ t, ch.toNat < 128) :
    goLen (String.mk t) = t.length := by
  unfold goLen utf8Bytes
  rw [mk_data]
  exact flatMap_ascii_length t h

/-! ## Structure preservation of the Structured-Data Redactor -/

mutual

theorem jsonShape_obfuscate (c : Cache) (j : Json) :
    jsonShape (obfuscateConfigData c j).1 = jsonShape j := by
  cases j with
  | null => rfl
  | bool b => rfl
  | num v => rfl
  | str s => rfl
  | arr items =>
    simp only [obfuscateConfigData, jsonShape]
    rw [jsonShape_obfuscateArr c items]
  | obj fields =>
    simp only [obfuscateConfigData, jsonShape]
    rw [jsonShape_obfuscateObj c fields]

theorem jsonShape_obfuscateArr (c : Cache) (l : List Json) :
    jsonShapeList (obfuscateConfigArr c l).1 = jsonShapeList l := by
  cases l with
  | nil => rfl
  | cons x xs =>
    simp only [obfuscateConfigArr, jsonShapeList]
    rw [jsonShape_obfuscate c x, jsonShape_obfuscateArr (obfuscateConfigData c x).2 xs]

theorem jsonShape_obfuscateObj (c : Cache) (l : List (String × Json)) :
    jsonShapeFields (obfuscateConfigObj c l).1 = jsonShapeFields l := by
  cases l with
  | nil => rfl
  | cons kv rest =>
    obtain ⟨k, v⟩ := kv
    cases v with
    | str s =>
      simp only [obfuscateConfigObj, jsonShapeFields, jsonShape]
      rw [jsonShape_obfuscateObj (classifyField c k s).2 rest]
    | null =>
      simp only [obfuscateConfigObj, jsonShapeFields]
      rw [jsonShape_obfuscate c .null, jsonShape_obfuscateObj (obfuscateConfigData c .null).2 rest]
    | bool b =>
      simp only [obfuscateConfigObj, jsonShapeFields]
      rw [jsonShape_obfuscate c (.bool b),
        jsonShape_obfuscateObj (obfuscateConfigData c (.bool b)).2 rest]
    | num n =>
      simp only [obfuscateConfigObj, jsonShapeFields]
      rw [jsonShape_obfuscate c (.num n),
        jsonShape_obfuscateObj (obfuscateConfigData c (.num n)).2 rest]
    | arr items =>
      simp only [obfuscateConfigObj, jsonShapeFields]
      rw [jsonShape_obfuscate c (.arr items),
        jsonShape_obfuscateObj (obfuscateConfigData c (.arr items)).2 rest]
    | obj fields =>
      simp only [obfuscateConfigObj, jsonShapeFields]
      rw [jsonShape_obfuscate c (.obj fields),
        jsonShape_obfuscateObj (obfuscateConfigData c (.obj fields)).2 rest]

end

/-- C4: structured redaction (`obfuscateConfigData`) preserves every object's
key list, the nesting depth, every array's length, and every non-string leaf
(numbers, booleans, null) bit for bit: the whole skeleton of the tree is
unchanged, only string-leaf contents may differ. Re-serialization
(`renderJson`, standing in for `json.MarshalIndent`) is total on the result,
so the output is always well-formed JSON. -/
theorem claim_C4_structure_preservation (c : Cache) (j : Json) :
    jsonShape (obfuscateConfigData c j).1 = jsonShape j :=
  jsonShape_obfuscate c j

/-! ## Consecutive-call stability of the obfuscators -/

theorem obfuscateIPAddress_stable (c : Cache) (s : String) :
    (obfuscateIPAddress (obfuscateIPAddress c s).2 s).1 = (obfuscateIPAddress c s).1 := by
  rw [obfuscateIPAddress_hit _ s _ (obfuscateIPAddress_caches c s)]

theorem obfuscateURL_stable (c : Cache) (s : String) :
    (obfuscateURL (obfuscateURL c s).2 s).1 = (obfuscateURL c s).1 := by
  rw [obfuscateURL_hit _ s _ (obfuscateURL_caches c s)]

theorem obfuscateUserID_stable (c : Cache) (s : String) :
    (obfuscateUserID (obfuscateUserID c s).2 s).1 = (obfuscateUserID c s).1 := by
  rw [obfuscateUserID_hit _ s _ (obfuscateUserID_caches c s)]

theorem obfuscateEmail_stable (c : Cache) (s : String) :
    (obfuscateEmail (obfuscateEmail c s).2 s).1 = (obfuscateEmail c s).1 := by
  cases h : lookupCache c s with
  | some p =>
    rw [obfuscateEmail_hit c s p h, obfuscateEmail_hit c s p h]
  | none =>
    by_cases h2 : (splitOnChar '@' s.data).length = 2
    · have hfst : (obfuscateEmail c s).2 = storeCache c s (obfuscateEmail c s).1 := by
        simp only [obfuscateEmail, h, if_pos h2]
      rw [hfst, obfuscateEmail_hit _ s _ (lookupCache_store ..)]
    · have hfst : obfuscateEmail c s = ("***OBFUSCATED_EMAIL***", c) := by
        simp only [obfuscateEmail, h, if_neg h2]
      rw [hfst]
      simp only [obfuscateEmail, h, if_neg h2]

theorem obfuscateAPIKey_stable (c : Cache) (s : String) :
    (obfuscateAPIKey (obfuscateAPIKey c s).2 s).1 = (obfuscateAPIKey c s).1 := by
  by_cases hs : s = ""
  · subst hs
    simp [obfuscateAPIKey]
  · have hcaches : lookupCache (obfuscateAPIKey c s).2 s = some (obfuscateAPIKey c s).1 := by
      unfold obfuscateAPIKey
      rw [if_neg hs]
      cases h : lookupCache c s with
      | some p => exact h
      | none => exact lookupCache_store ..
    rw [obfuscateAPIKey_hit _ s _ hs hcaches]

theorem obfuscateUsername_stable (c : Cache) (s : String) :
    (obfuscateUsername (obfuscateUsername c s).2 s).1 = (obfuscateUsername c s).1 := by
  by_cases hs : s = ""
  · subst hs
    simp [obfuscateUsername]
  · have hcaches : lookupCache (obfuscateUsername c s).2 s = some (obfuscateUsername c s).1 := by
      unfold obfuscateUsername
      rw [if_neg hs]
      cases h : lookupCache c s with
      | some p => exact h
      | none => exact lookupCache_store ..
    rw [obfuscateUsername_hit _ s _ hs hcaches]

/-- C5 (amended): within one run, two consecutive calls of the same obfuscator
on the same string — with no different-kind obfuscation of that string in
between — return byte-identical placeholders, for every cache-backed
obfuscator of the engine. (The unamended claim fails only on the email
sentinel path, which does not cache, so an interleaved different-kind call can
change the result; see the counterexample.) -/
theorem claim_C5_amended (c : Cache) (s : String) :
    (obfuscateIPAddress (obfuscateIPAddress c s).2 s).1 = (obfuscateIPAddress c s).1 ∧
    (obfuscateEmail (obfuscateEmail c s).2 s).1 = (obfuscateEmail c s).1 ∧
    (obfuscateURL (obfuscateURL c s).2 s).1 = (obfuscateURL c s).1 ∧
    (obfuscateAPIKey (obfuscateAPIKey c s).2 s).1 = (obfuscateAPIKey c s).1 ∧
    (obfuscateUsername (obfuscateUsername c s).2 s).1 = (obfuscateUsername c s).1 ∧
    (obfuscateUserID (obfuscateUserID c s).2 s).1 = (obfuscateUserID c s).1 :=
  ⟨obfuscateIPAddress_stable c s, obfuscateEmail_stable c s, obfuscateURL_stable c s,
    obfuscateAPIKey_stable c s, obfuscateUsername_stable c s, obfuscateUserID_stable c s⟩

/-- C5 (counterexample): two calls to `obfuscateEmail` on the string `"nx"`
within one run return different bytes when an `obfuscateUsername` call on the
same string happens in between: the first returns the email sentinel (not
cached), the interleaved call caches a username placeholder under `"nx"`, and
the second email call returns that cached username placeholder. -/
theorem claim_C5_counterexample :
    (obfuscateEmail [] "nx").1 = "***OBFUSCATED_EMAIL***" ∧
    (obfuscateEmail (obfuscateUsername (obfuscateEmail ([] : Cache) "nx").2 "nx").2 "nx").1 =
      "user_e5b564a7" ∧
    ("user_e5b564a7" : String) ≠ "***OBFUSCATED_EMAIL***" := by
  refine ⟨by decide, by decide, by decide⟩

/-! ## Cache sharing across obfuscator kinds (C10) -/

/-- C10 (amended): the cache is keyed by the original string alone, with no
record of which obfuscator kind created an entry. For every *non-empty*
string already in the cache, every cache-backed obfuscator returns the cached
placeholder as-is (so a second kind returns the first kind's placeholder,
whatever its format); for the empty string this holds for the IP, email, URL
and identifier obfuscators, while `obfuscateAPIKey` and `obfuscateUsername`
test for emptiness *before* consulting the cache and return `""` instead. -/
theorem claim_C10_amended (c : Cache) (s p : String) (h : lookupCache c s = some p) :
    obfuscateIPAddress c s = (p, c) ∧
    obfuscateEmail c s = (p, c) ∧
    obfuscateURL c s = (p, c) ∧
    obfuscateUserID c s = (p, c) ∧
    (s ≠ "" → obfuscateAPIKey c s = (p, c) ∧ obfuscateUsername c s = (p, c)) :=
  ⟨obfuscateIPAddress_hit c s p h, obfuscateEmail_hit c s p h, obfuscateURL_hit c s p h,
    obfuscateUserID_hit c s p h,
    fun hs => ⟨obfuscateAPIKey_hit c s p hs h, obfuscateUsername_hit c s p hs h⟩⟩

/-- C10 (witness): a cache entry `"x" ↦ "XXX.XXX.XXX.abc"` (as the IP
obfuscator would create) is returned verbatim by every other kind. -/
theorem claim_C10_witness :
    obfuscateIPAddress [("x", "XXX.XXX.XXX.abc")] "x" =
      ("XXX.XXX.XXX.abc", [("x", "XXX.XXX.XXX.abc")]) ∧
    obfuscateEmail [("x", "XXX.XXX.XXX.abc")] "x" =
      ("XXX.XXX.XXX.abc", [("x", "XXX.XXX.XXX.abc")]) ∧
    obfuscateURL [("x", "XXX.XXX.XXX.abc")] "x" =
      ("XXX.XXX.XXX.abc", [("x", "XXX.XXX.XXX.abc")]) ∧
    obfuscateUserID [("x", "XXX.XXX.XXX.abc")] "x" =
      ("XXX.XXX.XXX.abc", [("x", "XXX.XXX.XXX.abc")]) ∧
    (("x" : String) ≠ "" →
      obfuscateAPIKey [("x", "XXX.XXX.XXX.abc")] "x" =
        ("XXX.XXX.XXX.abc", [("x", "XXX.XXX.XXX.abc")]) ∧
      obfuscateUsername [("x", "XXX.XXX.XXX.abc")] "x" =
        ("XXX.XXX.XXX.abc", [("x", "XXX.XXX.XXX.abc")])) := by
  have h := claim_C10_amended [("x", "XXX.XXX.XXX.abc")] "x" "XXX.XXX.XXX.abc" (by decide)
  exact h

/-- C10 (counterexample): the claim as stated fails at the empty string. The
IP obfuscator can be called on `""` (for instance via a DSN host of the form
`:port`) and then caches a placeholder under `""`; `obfuscateAPIKey` on `""`
returns `""`, not that cached placeholder, because its empty-string guard
precedes the cache lookup. -/
theorem claim_C10_counterexample :
    lookupCache (obfuscateIPAddress [] "").2 "" = some "XXX.XXX.XXX.e3b" ∧
    (obfuscateAPIKey (obfuscateIPAddress [] "").2 "").1 = "" ∧
    ("" : String) ≠ "XXX.XXX.XXX.e3b" := by
  refine ⟨by decide, by decide, by decide⟩

/-! ## Directory dispatcher error policy (C8) -/

theorem obfuscateDirLoop_eq_filterMap (configOp logOp : String → Option String)
    (entries : List DirEntry) :
    obfuscateDirLoop configOp logOp entries = entries.filterMap (entryWarning configOp logOp) := by
  induction entries with
  | nil => rfl
  | cons e rest ih =>
    rw [List.filterMap_cons]
    cases h : entryWarning configOp logOp e with
    | some w => simp only [obfuscateDirLoop, h, ih]
    | none => simp only [obfuscateDirLoop, h, ih]

/-- C8: `ObfuscateDirectory` returns an error exactly when reading the
directory listing fails; when the listing succeeds it visits every entry,
turns each per-file failure into a logged warning (collected here in order)
without stopping, and reports success regardless of how many files failed. -/
theorem claim_C8_dispatcher_error_policy (configOp logOp : String → Option String) :
    (∀ msg, ObfuscateDirectory (.error msg) configOp logOp =
      .error ("failed to read directory: " ++ msg)) ∧
    (∀ entries, ObfuscateDirectory (.ok entries) configOp logOp =
      .ok (entries.filterMap (entryWarning configOp logOp))) := by
  constructor
  · intro msg
    rfl
  · intro entries
    simp only [ObfuscateDirectory, obfuscateDirLoop_eq_filterMap]

/-! ## Parse failure leaves the config file unwritten (C9) -/

/-- C9: when a structured file's contents cannot be parsed as a JSON value
tree, `ObfuscateConfigFile` reports an error and the content on disk is the
original content — no partial write happens. -/
theorem claim_C9_parse_failure_no_write (parse : String → Option (List (String × Json)))
    (content : String) (c : Cache) (h : parse content = none) :
    ObfuscateConfigFile parse (.ok content) c =
      (content, c, some "failed to parse config JSON") := by
  simp only [ObfuscateConfigFile, h]

/-- C9 (witness): a concrete unparseable content with a parser that rejects
it: the call errors out and the disk content stays the original. -/
theorem claim_C9_witness :
    ObfuscateConfigFile (fun _ => none) (.ok "not json") [] =
      ("not json", [], some "failed to parse config JSON") :=
  claim_C9_parse_failure_no_write (fun _ => none) "not json" [] rfl

/-! ## Unrecognized connection strings are redacted wholesale (C3) -/

/-- C3 (amended): every *non-empty* string matching neither the PostgreSQL
shape nor the MySQL shape is replaced with exactly `***REDACTED_DSN***`, with
no partial processing (the cache is untouched). The empty string is the one
exception, returned as `""` by the guard that precedes both shape tests. -/
theorem claim_C3_amended (c : Cache) (dsn : String) (h0 : dsn ≠ "")
    (h1 : pgParse dsn.data = none) (h2 : mysqlParse dsn.data = none) :
    obfuscateDatabaseDSN c dsn = ("***REDACTED_DSN***", c) := by
  simp only [obfuscateDatabaseDSN, if_neg h0, h1, h2]

/-- C3 (witness): the specification's own example of an unrecognized shape. -/
theorem claim_C3_witness :
    obfuscateDatabaseDSN [] "sqlite:///tmp/db.sqlite" = ("***REDACTED_DSN***", []) :=
  claim_C3_amended [] "sqlite:///tmp/db.sqlite" (by decide) (by decide) (by decide)

/-- C3 (counterexample): the empty string matches neither shape, yet
`obfuscateDatabaseDSN` returns `""` rather than the sentinel. -/
theorem claim_C3_counterexample :
    pgParse "".data = none ∧ mysqlParse "".data = none ∧
    obfuscateDatabaseDSN [] "" = ("", []) ∧
    ("" : String) ≠ "***REDACTED_DSN***" := by
  refine ⟨by decide, by decide, by decide, by decide⟩

/-! ## Email splitting (C2) -/

/-- C2 (amended): `obfuscateEmail` splits on *every* `@` (Go `strings.Split`),
so the two-part branch is taken exactly when the input contains exactly one
`@`: such an input `a@b` (with `a` and `b` free of `@`) yields
`user_<6 hex of a>@domain_<6 hex of b>.com`; an input with zero *or several*
`@`s — not merely "no `@`" as the claim reads the check — yields the constant
sentinel. Stated for strings not already in the cache. -/
theorem claim_C2_amended (c : Cache) (s : String) (hmiss : lookupCache c s = none) :
    (s.data.count '@' = 1 →
      ∃ a b : List Char, s.data = a ++ '@' :: b ∧ '@' ∉ a ∧ '@' ∉ b ∧
        (obfuscateEmail c s).1 =
          "user_" ++ strTake 6 (generateConsistentHash (String.mk a)) ++ "@domain_" ++
          strTake 6 (generateConsistentHash (String.mk b)) ++ ".com") ∧
    (s.data.count '@' ≠ 1 → (obfuscateEmail c s).1 = "***OBFUSCATED_EMAIL***") := by
  constructor
  · intro h1
    have hlen : (splitOnChar '@' s.data).length = 2 := by
      rw [splitOnChar_length, h1]
    obtain ⟨a, b, hab⟩ := List.length_eq_two.mp hlen
    obtain ⟨hdecomp, hna, hnb⟩ := splitOnChar_pair '@' s.data a b hab
    refine ⟨a, b, hdecomp, hna, hnb, ?_⟩
    simp only [obfuscateEmail, hmiss, hab, List.length_cons, List.length_nil, List.getD,
      List.get?, Option.getD_some, if_pos]
  · intro h1
    have hlen : ¬(splitOnChar '@' s.data).length = 2 := by
      rw [splitOnChar_length]
      omega
    simp only [obfuscateEmail, hmiss, if_neg hlen]

/-- C2 (witness): the amended theorem applied to `admin@example.com` with an
empty cache. -/
theorem claim_C2_witness :
    ∃ a b : List Char, "admin@example.com".data = a ++ '@' :: b ∧ '@' ∉ a ∧ '@' ∉ b ∧
      (obfuscateEmail [] "admin@example.com").1 =
        "user_" ++ strTake 6 (generateConsistentHash (String.mk a)) ++ "@domain_" ++
        strTake 6 (generateConsistentHash (String.mk b)) ++ ".com" :=
  (claim_C2_amended [] "admin@example.com" rfl).1 (by decide)

/-- C2 (counterexample): `"a@b@c"` contains at least one `@`, yet
`obfuscateEmail` returns the sentinel, not the `user_…@domain_….com` value the
claim prescribes for it (the three-way split has three parts, not two). -/
theorem claim_C2_counterexample :
    1 ≤ "a@b@c".data.count '@' ∧
    (obfuscateEmail [] "a@b@c").1 = "***OBFUSCATED_EMAIL***" ∧
    (obfuscateEmail [] "a@b@c").1 ≠
      "user_" ++ strTake 6 (generateConsistentHash "a") ++ "@domain_" ++
      strTake 6 (generateConsistentHash "b@c") ++ ".com" := by
  refine ⟨by decide, by decide, by decide⟩

/-! ## Placeholder format invariants (C6) -/

/-- C6 (amended): for every IPv4-shaped input *not already in the cache*,
`obfuscateIPAddress` produces a string of the form `XXX.XXX.XXX.[0-9a-f]{3}`,
and for every email whose split on `@` has exactly two parts and which is
*not already in the cache*, `obfuscateEmail` produces a string of the form
`user_[0-9a-f]{6}@domain_[0-9a-f]{6}\.com`. The cache-miss condition is the
amendment: a string already cached by a different obfuscator kind is returned
as that kind's placeholder, which can violate the format (see the
counterexample). -/
theorem claim_C6_format_invariants (c : Cache) (ip em : String)
    (_hip : isIPv4Shaped ip = true) (hmiss1 : lookupCache c ip = none)
    (hsplit : (splitOnChar '@' em.data).length = 2) (hmiss2 : lookupCache c em = none) :
    isIPPlaceholder (obfuscateIPAddress c ip).1 = true ∧
    isEmailPlaceholder (obfuscateEmail c em).1 = true := by
  constructor
  · have hform : (obfuscateIPAddress c ip).1 =
        "XXX.XXX.XXX." ++ strTake 3 (generateConsistentHash ip) := by
      simp only [obfuscateIPAddress, hmiss1]
    rw [hform]
    exact isIPPlaceholder_build ip
  · have hform : (obfuscateEmail c em).1 =
        "user_" ++ strTake 6 (generateConsistentHash
          (String.mk ((splitOnChar '@' em.data).getD 0 []))) ++ "@domain_" ++
        strTake 6 (generateConsistentHash
          (String.mk ((splitOnChar '@' em.data).getD 1 []))) ++ ".com" := by
      simp only [obfuscateEmail, hmiss2, if_pos hsplit]
    rw [hform]
    exact isEmailPlaceholder_build _ _

/-- C6 (witness): the formats at `10.0.0.1` and `admin@example.com` with an
empty cache. -/
theorem claim_C6_witness :
    isIPPlaceholder (obfuscateIPAddress [] "10.0.0.1").1 = true ∧
    isEmailPlaceholder (obfuscateEmail [] "admin@example.com").1 = true :=
  claim_C6_format_invariants [] "10.0.0.1" "admin@example.com" (by decide) rfl (by decide) rfl

/-- C6 (counterexample): without the cache-miss condition the format claim is
false on reachable inputs. A `SiteURL`-style call `obfuscateURL` on the bare
IP `10.0.0.1` caches `http://XXX.XXX.XXX.f50` under the IP string
(obfuscate.go:106), after which `obfuscateIPAddress` on that valid IPv4 shape
returns it — not an `XXX.XXX.XXX.[0-9a-f]{3}` placeholder. Likewise a
username field with value `a@b` caches `user_<8 hex>` under it, after which
`obfuscateEmail` on that well-formed split returns it — not a
`user_<6 hex>@domain_<6 hex>.com` placeholder. -/
theorem claim_C6_counterexample :
    isIPv4Shaped "10.0.0.1" = true ∧
    (obfuscateIPAddress (obfuscateURL [] "10.0.0.1").2 "10.0.0.1").1 =
      "http://XXX.XXX.XXX.f50" ∧
    isIPPlaceholder (obfuscateIPAddress (obfuscateURL [] "10.0.0.1").2 "10.0.0.1").1 = false ∧
    (splitOnChar '@' "a@b".data).length = 2 ∧
    (obfuscateEmail (obfuscateUsername [] "a@b").2 "a@b").1 = "user_7508d8b5" ∧
    isEmailPlaceholder (obfuscateEmail (obfuscateUsername [] "a@b").2 "a@b").1 = false := by
  refine ⟨by decide, by decide, by decide, by decide, by decide, by decide⟩

/-! ## The long-token threshold (C7) -/

theorem tryMatchToken_full (t : List Char) (hall : ∀ ch ∈ t, ch.isAlphanum = true)
    (h32 : 32 ≤ t.length) : tryMatchToken none t = some (t, []) := by
  cases ht : t with
  | nil => subst ht; simp at h32
  | cons x xs =>
    subst ht
    have hx : x.isAlphanum = true := hall x (by simp)
    have htw : (x :: xs).takeWhile Char.isAlphanum = x :: xs :=
      List.takeWhile_eq_self_iff.mpr hall
    have hdw : (x :: xs).dropWhile Char.isAlphanum = [] :=
      List.dropWhile_eq_nil_iff.mpr hall
    have hword : isWordChar x = true := by simp [isWordChar, hx]
    have hbnd : boundaryBefore none x = true := by simp [boundaryBefore, hword]
    have hlt : ¬(x :: xs).length < 32 := by omega
    simp only [tryMatchToken, hbnd, Bool.not_true, Bool.false_eq_true, if_false, htw, hdw,
      if_neg hlt, noWordFollows, if_pos]

theorem getLast?_isSome_of_cons (x : Char) (xs : List Char) :
    ∃ lc, (x :: xs).getLast? = some lc := by
  induction xs generalizing x with
  | nil => exact ⟨x, rfl⟩
  | cons y ys ih =>
    obtain ⟨lc, hlc⟩ := ih y
    exact ⟨lc, by rw [List.getLast?_cons_cons, hlc]⟩

/-- Evaluate one `ReplaceAllStringFunc` pass on a text that is in its entirety
a single match of the pattern. -/
theorem runStage_whole_match
    (tryMatch : Option Char → List Char → Option (List Char × List Char))
    (repl : Cache → List Char → List Char × Cache) (c : Cache)
    (x : Char) (xs : List Char) (hm : tryMatch none (x :: xs) = some (x :: xs, [])) :
    runStage tryMatch repl c (x :: xs) =
      ((repl c (x :: xs)).1 ++ [], (repl c (x :: xs)).2) := by
  obtain ⟨lc, hlc⟩ := getLast?_isSome_of_cons x xs
  unfold runStage
  simp only [List.length_cons, scanAux, hm, hlc]

theorem tokenRepl_short (c : Cache) (t : List Char) (hall : ∀ ch ∈ t, ch.isAlphanum = true)
    (h39 : t.length ≤ 39) : tokenRepl c t = (t, c) := by
  have hascii : ∀ ch ∈ t, ch.toNat < 128 := fun ch hch => isAlphanum_toNat_lt ch (hall ch hch)
  have hlen : goLen (String.mk t) = t.length := goLen_ascii t hascii
  unfold tokenRepl
  rw [if_neg (by omega)]

theorem tokenRepl_long (c : Cache) (t : List Char) (hall : ∀ ch ∈ t, ch.isAlphanum = true)
    (h40 : 40 ≤ t.length) (hmiss : lookupCache c (String.mk t) = none) :
    tokenRepl c t =
      (("OBFUSCATED_KEY_" ++ strTake 8 (generateConsistentHash (String.mk t))).data,
        storeCache c (String.mk t)
          ("OBFUSCATED_KEY_" ++ strTake 8 (generateConsistentHash (String.mk t)))) := by
  have hascii : ∀ ch ∈ t, ch.toNat < 128 := fun ch hch => isAlphanum_toNat_lt ch (hall ch hch)
  have hlen : goLen (String.mk t) = t.length := goLen_ascii t hascii
  have hne : String.mk t ≠ "" := by
    intro hmk
    have hdata := congrArg String.data hmk
    rw [mk_data] at hdata
    rw [hdata] at h40
    simp at h40
  unfold tokenRepl liftRepl
  rw [if_pos (by omega)]
  unfold obfuscateAPIKey
  rw [if_neg hne, hmiss]

/-- C7 (amended): in the Text Redactor's long-token rule, a
word-boundary-delimited alphanumeric run of length 32 to 39 (here: a text
that is exactly such a run) is matched as a candidate but left unchanged —
unconditionally — while a run of length at least 40 *not already in the
cache* is rewritten to `OBFUSCATED_KEY_<8 hex>`. The cache-miss condition on
the second half is the amendment: a run of length at least 40 already cached
by another obfuscator kind is rewritten to that kind's cached placeholder
instead (see the counterexample). -/
theorem claim_C7_token_threshold (c : Cache) (t : List Char)
    (hall : ∀ ch ∈ t, ch.isAlphanum = true) (h32 : 32 ≤ t.length) :
    (t.length ≤ 39 → runStage tryMatchToken tokenRepl c t = (t, c)) ∧
    (40 ≤ t.length → lookupCache c (String.mk t) = none →
      runStage tryMatchToken tokenRepl c t =
        (("OBFUSCATED_KEY_" ++ strTake 8 (generateConsistentHash (String.mk t))).data,
          storeCache c (String.mk t)
            ("OBFUSCATED_KEY_" ++ strTake 8 (generateConsistentHash (String.mk t)))) ∧
      isKeyPlaceholder ("OBFUSCATED_KEY_" ++
        strTake 8 (generateConsistentHash (String.mk t))) = true) := by
  cases ht : t with
  | nil => subst ht; simp at h32
  | cons x xs =>
    subst ht
    have hfull := tryMatchToken_full (x :: xs) hall h32
    constructor
    · intro h39
      rw [runStage_whole_match tryMatchToken tokenRepl c x xs hfull,
        tokenRepl_short c (x :: xs) hall h39]
      simp
    · intro h40 hmiss
      refine ⟨?_, isKeyPlaceholder_build _⟩
      rw [runStage_whole_match tryMatchToken tokenRepl c x xs hfull,
        tokenRepl_long c (x :: xs) hall h40 hmiss]
      simp

/-- C7 (witness): a 39-`a` run is untouched; a 40-`a` run becomes an
`OBFUSCATED_KEY_<8 hex>` placeholder. -/
theorem claim_C7_witness :
    runStage tryMatchToken tokenRepl [] (List.replicate 39 'a') = (List.replicate 39 'a', []) ∧
    (runStage tryMatchToken tokenRepl [] (List.replicate 40 'a') =
      (("OBFUSCATED_KEY_" ++
          strTake 8 (generateConsistentHash (String.mk (List.replicate 40 'a')))).data,
        storeCache [] (String.mk (List.replicate 40 'a'))
          ("OBFUSCATED_KEY_" ++
            strTake 8 (generateConsistentHash (String.mk (List.replicate 40 'a'))))) ∧
      isKeyPlaceholder ("OBFUSCATED_KEY_" ++
        strTake 8 (generateConsistentHash (String.mk (List.replicate 40 'a')))) = true) :=
  ⟨(claim_C7_token_threshold [] (List.replicate 39 'a') (by decide) (by decide)).1 (by decide),
    (claim_C7_token_threshold [] (List.replicate 40 'a') (by decide) (by decide)).2
      (by decide) rfl⟩

/-- C7 (counterexample): without the cache-miss condition the at-least-40
half of the claim is false on reachable inputs: a 40-character alphanumeric
run that an earlier different-kind call (here `obfuscateUsername`, as for a
long username field) cached under `user_<8 hex>` is rewritten by the token
pass to that cached placeholder, not to `OBFUSCATED_KEY_<8 hex>`. -/
theorem claim_C7_counterexample :
    (obfuscateUsername [] (String.mk (List.replicate 40 'a'))).1 = "user_e33cdf9c" ∧
    (runStage tryMatchToken tokenRepl
        (obfuscateUsername [] (String.mk (List.replicate 40 'a'))).2
        (List.replicate 40 'a')).1 = "user_e33cdf9c".data ∧
    isKeyPlaceholder "user_e33cdf9c" = false := by
  refine ⟨by decide, by decide, by decide⟩

/-! ## The text-pipeline example line (C1) -/

/-- The input line of the specification's text-pipeline example. -/
def textPipelineExampleLine : String :=
  "Connected from 192.168.1.100 as admin@example.com via https://192.168.1.100:8065/api"

theorem c1_ip_placeholder :
    (obfuscateIPAddress [] "192.168.1.100").1 = "XXX.XXX.XXX.2a3" := by
  decide

theorem c1_stage1_eval :
    String.mk (runStage tryMatchIPv4 (liftRepl obfuscateIPAddress) []
      textPipelineExampleLine.data).1 =
      "Connected from XXX.XXX.XXX.2a3 as admin@example.com via https://XXX.XXX.XXX.2a3:8065/api" := by
  decide

theorem c1_pipeline_eval :
    (obfuscateLogText [] textPipelineExampleLine).1 =
      "Connected from XXX.XXX.XXX.2a3 as user_8c6976@domain_a379a6.com via https://host_cc454c.example.com:8065/api" := by
  decide

/-- C1 (amended): on the example line, the IPv4 pass does replace the
standalone IPv4 and the one embedded in the URL with the *same* placeholder
(`XXX.XXX.XXX.2a3`, both being the literal `192.168.1.100`), and the email is
replaced per the email format; but the subsequent URL pass rewrites the whole
URL — whose host is by then the already-masked `XXX.XXX.XXX.2a3:8065`, an
IP-shape no longer — into `https://host_cc454c.example.com:8065/api`, so in
the *final* output line the placeholder appears only at the standalone
occurrence. -/
theorem claim_C1_amended :
    (obfuscateIPAddress [] "192.168.1.100").1 = "XXX.XXX.XXX.2a3" ∧
    String.mk (runStage tryMatchIPv4 (liftRepl obfuscateIPAddress) []
      textPipelineExampleLine.data).1 =
      "Connected from XXX.XXX.XXX.2a3 as admin@example.com via https://XXX.XXX.XXX.2a3:8065/api" ∧
    (obfuscateLogText [] textPipelineExampleLine).1 =
      "Connected from XXX.XXX.XXX.2a3 as user_8c6976@domain_a379a6.com via https://host_cc454c.example.com:8065/api" ∧
    isEmailPlaceholder "user_8c6976@domain_a379a6.com" = true :=
  ⟨c1_ip_placeholder, c1_stage1_eval, c1_pipeline_eval, by decide⟩

/-- C1 (counterexample): the claim as stated — that the *output line* of the
full pipeline still carries the same IP placeholder at both the standalone
position and inside the URL — is false: no email-placeholder value can make
the final line match that template, because the URL pass has rewritten the
URL's masked host to `host_cc454c.example.com`. -/
theorem claim_C1_counterexample :
    ¬ ∃ em : String, isEmailPlaceholder em = true ∧
      (obfuscateLogText [] textPipelineExampleLine).1 =
        "Connected from " ++ (obfuscateIPAddress [] "192.168.1.100").1 ++ " as " ++ em ++
        " via https://" ++ (obfuscateIPAddress [] "192.168.1.100").1 ++ ":8065/api" := by
  rintro ⟨em, -, heq⟩
  rw [c1_ip_placeholder, c1_pipeline_eval] at heq
  have hd := congrArg String.data heq
  rw [String.data_append, String.data_append, String.data_append, String.data_append,
    String.data_append, String.data_append] at hd
  rw [show ("Connected from XXX.XXX.XXX.2a3 as user_8c6976@domain_a379a6.com via https://host_cc454c.example.com:8065/api" : String).data =
      ("Connected from XXX.XXX.XXX.2a3 as user_8c6976@domain_a379a6.com via https://host_cc454c.example.com:8065/api" : String).data.take 99 ++
      ("Connected from XXX.XXX.XXX.2a3 as user_8c6976@domain_a379a6.com via https://host_cc454c.example.com:8065/api" : String).data.drop 99
    from (List.take_append_drop 99 _).symm] at hd
  have h1 := (List.append_inj' hd (by decide)).1
  rw [show ("Connected from XXX.XXX.XXX.2a3 as user_8c6976@domain_a379a6.com via https://host_cc454c.example.com:8065/api" : String).data.take 99 =
      (("Connected from XXX.XXX.XXX.2a3 as user_8c6976@domain_a379a6.com via https://host_cc454c.example.com:8065/api" : String).data.take 99).take 84 ++
      (("Connected from XXX.XXX.XXX.2a3 as user_8c6976@domain_a379a6.com via https://host_cc454c.example.com:8065/api" : String).data.take 99).drop 84
    from (List.take_append_drop 84 _).symm] at h1
  have h2 := (List.append_inj' h1 (by decide)).2
  exact absurd h2 (by decide)

end MMPacketPull
